import Mathlib

/-!
Verification of the finance-analytics portfolio optimization core.

The development shallowly embeds the two core modules:
* `src/analysis/portfolio/black_litterman.py` (class `BlackLittermanModel`)
  over exact rationals `ℚ` — all of its linear algebra is exact;
* `src/analysis/portfolio/optimizer.py` (class `PortfolioOptimizer` and the
  module-level helpers) over the reals `ℝ`, since `portfolio_stats` takes a
  square root.

The external SLSQP solver (`scipy.optimize.minimize`) is a collaborator: it is
modelled as an oracle mapping the constructed optimization problem to a result
record `{x, success, message}`, exactly the fields the source consumes.
Fallible Python code (raised exceptions) is modelled with `Except String`.
-/

namespace FinanceAnalytics

/-! ## Black-Litterman engine state (black_litterman.py) -/

/-- The view matrices stored by `add_views` on the model object:
`self.P` (pick matrix, numViews × nAssets), `self.Q` (view vector),
`self.Omega` (view-uncertainty matrix). -/
structure BLViews (n : ℕ) where
  k : ℕ
  P : Matrix (Fin k) (Fin n) ℚ
  Q : Fin k → ℚ
  Omega : Matrix (Fin k) (Fin k) ℚ

/-- The mutable state of a `BlackLittermanModel` instance (fields set in
`__init__`, `fetch_data`, `calculate_equilibrium_returns`, `add_views`,
`calculate_posterior_returns`).  `n` is `self.n_assets = len(self.tickers)`. -/
structure BLState (n : ℕ) where
  tickers : List String
  hlen : tickers.length = n
  risk_free_rate : ℚ
  tau : ℚ
  delta : ℚ
  market_weights : Fin n → ℚ
  cov_matrix : Option (Matrix (Fin n) (Fin n) ℚ)
  equilibrium_returns : Option (Fin n → ℚ)
  views : Option (BLViews n)
  posterior_returns : Option (Fin n → ℚ)
  posterior_cov : Option (Matrix (Fin n) (Fin n) ℚ)

/-- `BlackLittermanModel.calculate_equilibrium_returns`:
raises when `self.cov_matrix is None`, otherwise stores and returns
`Π = δ · Σ · w_market` (`self.delta * np.dot(self.cov_matrix, self.market_weights)`). -/
def calculate_equilibrium_returns {n : ℕ} (s : BLState n) :
    Except String ((Fin n → ℚ) × BLState n) :=
  match s.cov_matrix with
  | none => .error "Must fetch data before calculating equilibrium returns"
  | some Sigma =>
    let pi := s.delta • Sigma.mulVec s.market_weights
    .ok (pi, { s with equilibrium_returns := some pi })

/-- `np.linalg.inv`: raises `LinAlgError` on a singular matrix, otherwise
returns the inverse (computed here as `det⁻¹ • adjugate`, which agrees with
Mathlib's `Matrix.inv` over a field). -/
def npLinalgInv {m : ℕ} (A : Matrix (Fin m) (Fin m) ℚ) :
    Except String (Matrix (Fin m) (Fin m) ℚ) :=
  if A.det = 0 then .error "Singular matrix"
  else .ok (A.det⁻¹ • A.adjugate)

theorem npLinalgInv_ok {m : ℕ} {A B : Matrix (Fin m) (Fin m) ℚ}
    (h : npLinalgInv A = .ok B) : A.det ≠ 0 ∧ B = A⁻¹ := by
  by_cases hd : A.det = 0
  · simp [npLinalgInv, hd] at h
  · refine ⟨hd, ?_⟩
    simp only [npLinalgInv, hd, if_neg, ite_false] at h
    cases h
    rw [Matrix.inv_def, Ring.inverse_eq_inv]

theorem npLinalgInv_of_det_ne {m : ℕ} {A : Matrix (Fin m) (Fin m) ℚ}
    (h : A.det ≠ 0) : npLinalgInv A = .ok A⁻¹ := by
  simp only [npLinalgInv, h, ite_false]
  rw [Matrix.inv_def, Ring.inverse_eq_inv]

/-- `BlackLittermanModel.calculate_posterior_returns`:
raises when no views were added; otherwise computes
`posterior_precision = (τΣ)⁻¹ + Pᵀ Ω⁻¹ P`,
`posterior_mean = posterior_precision⁻¹ · ((τΣ)⁻¹·Π + Pᵀ·Ω⁻¹·Q)`,
stores `posterior_returns := posterior_mean`,
`posterior_cov := posterior_precision⁻¹` and returns the mean.
The source reads `self.cov_matrix` and `self.equilibrium_returns` without a
guard; a `None` there is a (numpy `TypeError`) exception, modelled as an error. -/
def calculate_posterior_returns {n : ℕ} (s : BLState n) :
    Except String ((Fin n → ℚ) × BLState n) :=
  match s.views with
  | none => .error "Must add views before calculating posterior returns"
  | some v =>
    match s.cov_matrix with
    | none => .error "TypeError: unsupported operand type for cov_matrix None"
    | some Sigma =>
      match s.equilibrium_returns with
      | none => .error "TypeError: unsupported operand type for equilibrium_returns None"
      | some pi => do
        let tau_sigma := s.tau • Sigma
        let tau_sigma_inv ← npLinalgInv tau_sigma
        let omega_inv ← npLinalgInv v.Omega
        let posterior_precision := tau_sigma_inv + v.P.transpose * omega_inv * v.P
        let pp_inv ← npLinalgInv posterior_precision
        let posterior_mean :=
          pp_inv.mulVec (tau_sigma_inv.mulVec pi + v.P.transpose.mulVec (omega_inv.mulVec v.Q))
        .ok (posterior_mean,
          { s with posterior_returns := some posterior_mean, posterior_cov := some pp_inv })

/-! ## C1: equilibrium returns -/

/-- C1: for every covariance matrix `Σ`, market weight vector `w_market` and
risk-aversion `δ` held in the model state, `calculate_equilibrium_returns`
returns exactly `Π = δ · Σ · w_market` — componentwise
`Π i = δ * ∑ j, Σ i j * w j` — and stores it in the state; when invoked
while `cov_matrix` is still `None` it fails with an error instead of
returning a value. -/
theorem c1_equilibrium_returns {n : ℕ} (s : BLState n) :
    (∀ Sigma : Matrix (Fin n) (Fin n) ℚ, s.cov_matrix = some Sigma →
      ∃ s' : BLState n,
        calculate_equilibrium_returns s = .ok (s.delta • Sigma.mulVec s.market_weights, s') ∧
        (∀ i, (s.delta • Sigma.mulVec s.market_weights) i =
          s.delta * ∑ j, Sigma i j * s.market_weights j) ∧
        s'.equilibrium_returns = some (s.delta • Sigma.mulVec s.market_weights)) ∧
    (s.cov_matrix = none → ∃ e, calculate_equilibrium_returns s = .error e) := by
  constructor
  · intro Sigma hc
    refine ⟨{ s with equilibrium_returns := some (s.delta • Sigma.mulVec s.market_weights) },
      ?_, ?_, rfl⟩
    · simp [calculate_equilibrium_returns, hc]
    · intro i
      simp [Matrix.mulVec, Matrix.dotProduct, Pi.smul_apply, smul_eq_mul]
  · intro hc
    exact ⟨"Must fetch data before calculating equilibrium returns",
      by simp [calculate_equilibrium_returns, hc]⟩

/-- Concrete 3-asset model state for the C1 witness (the spec's Scenario C:
equal market weights 1/3 and δ = 2.5). -/
def blScenC : BLState 3 where
  tickers := ["AAA", "BBB", "CCC"]
  hlen := rfl
  risk_free_rate := 1/50
  tau := 1/20
  delta := 5/2
  market_weights := fun _ => 1/3
  cov_matrix := some (Matrix.of ![![4/100, 1/100, 0], ![1/100, 2/100, 0], ![0, 0, 3/100]])
  equilibrium_returns := none
  views := none
  posterior_returns := none
  posterior_cov := none

theorem c1_equilibrium_returns_witness :
    blScenC.cov_matrix =
      some (Matrix.of ![![4/100, 1/100, 0], ![1/100, 2/100, 0], ![0, 0, 3/100]]) ∧
    (∃ s' : BLState 3,
      calculate_equilibrium_returns blScenC =
        .ok (blScenC.delta •
          (Matrix.of ![![4/100, 1/100, 0], ![1/100, 2/100, 0],
            ![0, 0, 3/100]]).mulVec blScenC.market_weights, s') ∧
      (∀ i, (blScenC.delta •
          (Matrix.of ![![4/100, 1/100, 0], ![1/100, 2/100, 0],
            ![0, 0, 3/100]]).mulVec blScenC.market_weights) i =
        blScenC.delta * ∑ j, (Matrix.of ![![4/100, 1/100, 0], ![1/100, 2/100, 0],
            ![0, 0, 3/100]]) i j * blScenC.market_weights j) ∧
      s'.equilibrium_returns = some (blScenC.delta •
          (Matrix.of ![![4/100, 1/100, 0], ![1/100, 2/100, 0],
            ![0, 0, 3/100]]).mulVec blScenC.market_weights)) ∧
    blScenC.delta •
        (Matrix.of ![![4/100, 1/100, 0], ![1/100, 2/100, 0],
          ![0, 0, 3/100]]).mulVec blScenC.market_weights = ![1/24, 1/40, 1/40] := by
  refine ⟨rfl, (c1_equilibrium_returns blScenC).1 _ rfl, ?_⟩
  funext i
  fin_cases i <;>
    simp [blScenC, Matrix.mulVec, Matrix.dotProduct, Fin.sum_univ_three] <;> norm_num

/-! ## C2: posterior returns -/

/-- Spec formula `posteriorPrecision = (τΣ)⁻¹ + Pᵀ Ω⁻¹ P` (stated with
Mathlib's matrix inverse, to be compared with the code's `np.linalg.inv`
computation). -/
noncomputable def blPosteriorPrecisionSpec {n : ℕ} (tau : ℚ)
    (Sigma : Matrix (Fin n) (Fin n) ℚ) (v : BLViews n) : Matrix (Fin n) (Fin n) ℚ :=
  (tau • Sigma)⁻¹ + v.P.transpose * v.Omega⁻¹ * v.P

/-- Spec formula `posteriorMean = posteriorPrecision⁻¹ · ((τΣ)⁻¹·Π + Pᵀ·Ω⁻¹·Q)`. -/
noncomputable def blPosteriorMeanSpec {n : ℕ} (tau : ℚ)
    (Sigma : Matrix (Fin n) (Fin n) ℚ) (pi : Fin n → ℚ) (v : BLViews n) : Fin n → ℚ :=
  (blPosteriorPrecisionSpec tau Sigma v)⁻¹.mulVec
    ((tau • Sigma)⁻¹.mulVec pi + v.P.transpose.mulVec (v.Omega⁻¹.mulVec v.Q))

/-- C2: in a state where views have been added and `τΣ`, `Ω` (and the resulting
posterior precision) are invertible, `calculate_posterior_returns` returns the
Black-Litterman posterior mean and stores the posterior covariance
`posteriorPrecision⁻¹`; invoked before any views were added it errors. -/
theorem c2_posterior_returns {n : ℕ} (s : BLState n) :
    (∀ (v : BLViews n) (Sigma : Matrix (Fin n) (Fin n) ℚ) (pi : Fin n → ℚ),
      s.views = some v → s.cov_matrix = some Sigma → s.equilibrium_returns = some pi →
      (s.tau • Sigma).det ≠ 0 → v.Omega.det ≠ 0 →
      (blPosteriorPrecisionSpec s.tau Sigma v).det ≠ 0 →
      ∃ s' : BLState n,
        calculate_posterior_returns s = .ok (blPosteriorMeanSpec s.tau Sigma pi v, s') ∧
        s'.posterior_returns = some (blPosteriorMeanSpec s.tau Sigma pi v) ∧
        s'.posterior_cov = some (blPosteriorPrecisionSpec s.tau Sigma v)⁻¹) ∧
    (s.views = none → ∃ e, calculate_posterior_returns s = .error e) := by
  constructor
  · intro v Sigma pi hv hc he hdts hdo hdp
    refine ⟨{ s with
      posterior_returns := some (blPosteriorMeanSpec s.tau Sigma pi v)
      posterior_cov := some (blPosteriorPrecisionSpec s.tau Sigma v)⁻¹ }, ?_, rfl, rfl⟩
    simp only [calculate_posterior_returns, hv, hc, he]
    rw [npLinalgInv_of_det_ne hdts, npLinalgInv_of_det_ne hdo]
    simp only [bind, Except.bind]
    rw [show (s.tau • Sigma)⁻¹ + v.P.transpose * v.Omega⁻¹ * v.P =
      blPosteriorPrecisionSpec s.tau Sigma v from rfl, npLinalgInv_of_det_ne hdp]
    rfl
  · intro hv
    exact ⟨"Must add views before calculating posterior returns",
      by simp [calculate_posterior_returns, hv]⟩

/-- Concrete 1×1 covariance matrix used by the C2 witness. -/
def covOne : Matrix (Fin 1) (Fin 1) ℚ := Matrix.of ![![2]]

/-- Concrete single view (P = [[1]], Q = [0.1], Ω = [[1]]) for the C2 witness. -/
def viewsOne : BLViews 1 := ⟨1, Matrix.of ![![1]], ![1/10], Matrix.of ![![1]]⟩

/-- Concrete one-asset state with a single view, for the C2 witness. -/
def blOneView : BLState 1 where
  tickers := ["AAA"]
  hlen := rfl
  risk_free_rate := 1/50
  tau := 1/2
  delta := 5/2
  market_weights := fun _ => 1
  cov_matrix := some covOne
  equilibrium_returns := some ![1/20]
  views := some viewsOne
  posterior_returns := none
  posterior_cov := none

theorem c2_posterior_returns_witness :
    ((1/2 : ℚ) • covOne).det ≠ 0 ∧
    viewsOne.Omega.det ≠ 0 ∧
    (blPosteriorPrecisionSpec (1/2) covOne viewsOne).det ≠ 0 ∧
    (∃ s' : BLState 1,
      calculate_posterior_returns blOneView =
        .ok (blPosteriorMeanSpec (1/2) covOne ![1/20] viewsOne, s') ∧
      s'.posterior_returns = some (blPosteriorMeanSpec (1/2) covOne ![1/20] viewsOne) ∧
      s'.posterior_cov = some (blPosteriorPrecisionSpec (1/2) covOne viewsOne)⁻¹) ∧
    blPosteriorMeanSpec (1/2) covOne ![1/20] viewsOne = ![3/40] := by
  have hdts : ((1/2 : ℚ) • covOne).det ≠ 0 := by
    rw [Matrix.det_fin_one]
    norm_num [covOne]
  have hdo : viewsOne.Omega.det ≠ 0 := by
    rw [Matrix.det_fin_one]
    decide
  have hprec : blPosteriorPrecisionSpec (1/2) covOne viewsOne = Matrix.of ![![2]] := by
    unfold blPosteriorPrecisionSpec
    rw [Matrix.inv_def, Matrix.inv_def]
    funext i j
    fin_cases i
    fin_cases j
    simp [Matrix.det_fin_one, Matrix.adjugate_fin_one, Ring.inverse_eq_inv,
      Matrix.mul_apply, Fin.sum_univ_one, covOne, viewsOne]
    norm_num
  have hdp : (blPosteriorPrecisionSpec (1/2) covOne viewsOne).det ≠ 0 := by
    rw [hprec, Matrix.det_fin_one]
    norm_num
  refine ⟨hdts, hdo, hdp, (c2_posterior_returns blOneView).1 _ _ _ rfl rfl rfl hdts hdo hdp, ?_⟩
  unfold blPosteriorMeanSpec
  rw [hprec, Matrix.inv_def, Matrix.inv_def, Matrix.inv_def]
  funext i
  fin_cases i
  simp [Matrix.det_fin_one, Matrix.adjugate_fin_one, Ring.inverse_eq_inv,
    Matrix.mulVec, Matrix.dotProduct, Fin.sum_univ_one, covOne, viewsOne]
  norm_num

/-! ## add_views (black_litterman.py lines 73-134) -/

/-- One entry of the `views` list passed to `add_views`:
`{'assets': [...], 'view': value, 'type': 'absolute'|'relative'}`. -/
structure ViewSpec where
  assets : List String
  value : ℚ
  type : String

/-- `self.tickers.index(asset)`: position of the first occurrence, raising
`ValueError` when the asset is not a ticker of the model. -/
def tickersIndex (tickers : List String) (a : String) : Except String ℕ :=
  match tickers with
  | [] => .error (a ++ " is not in list")
  | t :: ts =>
    if t = a then .ok 0
    else
      match tickersIndex ts a with
      | .ok i => .ok (i + 1)
      | .error e => .error e

/-- Effectful `map` over `Except`, mirroring a Python list comprehension or
loop in which the first raised exception aborts the whole call. -/
def mapE {α β : Type} (f : α → Except String β) : List α → Except String (List β)
  | [] => .ok []
  | x :: xs =>
    match f x with
    | .error e => .error e
    | .ok y =>
      match mapE f xs with
      | .error e => .error e
      | .ok ys => .ok (y :: ys)

/-- Sequentially perform the assignments `row[idx] := val` of one iteration of
the pick-matrix loop, starting from the given row (rows start as `np.zeros`). -/
def applyAssigns {n : ℕ} (asgs : List (ℕ × ℚ)) (row : Fin n → ℚ) : Fin n → ℚ :=
  asgs.foldl (fun r a => fun j => if (j : ℕ) = a.1 then a.2 else r j) row

/-- The body of the `for i, view in enumerate(views)` loop of `add_views`,
producing the pick-matrix row `P[i]` and view value `Q[i]` for one view:
asset indices are looked up first (raising on an unknown asset), then the
row is filled according to the view type; an unknown type raises.  A
`relative` view with fewer than two assets leaves the zero row and `Q[i] = 0`. -/
def viewRow (n : ℕ) (tickers : List String) (v : ViewSpec) :
    Except String ((Fin n → ℚ) × ℚ) :=
  match mapE (tickersIndex tickers) v.assets with
  | .error e => .error e
  | .ok idxs =>
    if v.type = "absolute" then
      .ok (applyAssigns (idxs.map (fun i => (i, (1 : ℚ) / idxs.length))) (fun _ => 0), v.value)
    else if v.type = "relative" then
      if 2 ≤ idxs.length then
        .ok (applyAssigns ((idxs.getD 0 0, 1) :: (idxs.getD 1 0, -1) ::
          (idxs.drop 2).map (fun i => (i, 0))) (fun _ => 0), v.value)
      else .ok (fun _ => 0, 0)
    else .error ("Unknown view type: " ++ v.type)

/-- Assemble the `(P, Q, Ω)` triple from the computed per-view rows:
`Ω` is diagonal with `Ω_ii = τ * (P_i · Σ · P_i) / confidence_i`. -/
def viewBundle {n : ℕ} (tau : ℚ) (Sigma : Matrix (Fin n) (Fin n) ℚ)
    (rows : List ((Fin n → ℚ) × ℚ)) (conf : List ℚ) : BLViews n where
  k := rows.length
  P := Matrix.of fun i j => (rows.get i).1 j
  Q := fun i => (rows.get i).2
  Omega := Matrix.of fun i j =>
    if i = j then
      tau * (∑ jj, (rows.get i).1 jj * Sigma.mulVec (rows.get i).1 jj) /
        conf.getD (i : ℕ) 0
    else 0

/-- `BlackLittermanModel.add_views(views, confidences)`:
computes equilibrium returns first when absent, builds `P`, `Q` row by row,
then the diagonal uncertainty matrix `Ω` with
`Ω_ii = τ * (P_i · Σ · P_i) / confidence_i` (default confidence `0.5`),
stores the triple on the model and returns it. -/
def add_views {n : ℕ} (s : BLState n) (views : List ViewSpec)
    (confidences : Option (List ℚ)) : Except String (BLViews n × BLState n) := do
  let s1 ←
    match s.equilibrium_returns with
    | none => do
      let r ← calculate_equilibrium_returns s
      pure r.2
    | some _ => pure s
  let rows ← mapE (viewRow n s1.tickers) views
  match s1.cov_matrix with
  | none => .error "TypeError: unsupported operand type for cov_matrix None"
  | some Sigma =>
    let conf := confidences.getD (List.replicate views.length (1/2))
    if conf.length < rows.length then .error "IndexError: list index out of range"
    else
      let bundle := viewBundle s1.tau Sigma rows conf
      .ok (bundle, { s1 with views := some bundle })

/-! ## C10: add_views error behaviour -/

theorem tickersIndex_ok {tickers : List String} {a : String} (h : a ∈ tickers) :
    ∃ i, tickersIndex tickers a = .ok i := by
  induction tickers with
  | nil => cases h
  | cons t ts ih =>
    by_cases ht : t = a
    · exact ⟨0, by simp [tickersIndex, ht]⟩
    · have hmem : a ∈ ts := by
        cases h with
        | head => exact absurd rfl ht
        | tail _ h => exact h
      obtain ⟨i, hi⟩ := ih hmem
      exact ⟨i + 1, by simp [tickersIndex, ht, hi]⟩

theorem mapE_ok_of_forall {α β : Type} (f : α → Except String β) (l : List α)
    (h : ∀ x ∈ l, ∃ y, f x = .ok y) :
    ∃ ys : List β, mapE f l = .ok ys ∧ ys.length = l.length ∧
      ∀ (i : ℕ) (hi : i < l.length) (hy : i < ys.length),
        f (l.get ⟨i, hi⟩) = .ok (ys.get ⟨i, hy⟩) := by
  induction l with
  | nil => exact ⟨[], rfl, rfl, fun i hi => absurd hi (Nat.not_lt_zero i)⟩
  | cons x xs ih =>
    obtain ⟨y, hy⟩ := h x (List.mem_cons_self x xs)
    obtain ⟨ys, hys, hlen, hidx⟩ := ih (fun a ha => h a (List.mem_cons_of_mem _ ha))
    refine ⟨y :: ys, ?_, by simp [hlen], ?_⟩
    · simp [mapE, hy, hys]
    · intro i hi hyi
      match i with
      | 0 => simpa using hy
      | j + 1 =>
        simpa using hidx j (Nat.lt_of_succ_lt_succ hi) (Nat.lt_of_succ_lt_succ hyi)

theorem viewRow_ok {n : ℕ} {tickers : List String} {v : ViewSpec}
    (ha : ∀ a ∈ v.assets, a ∈ tickers)
    (ht : v.type = "absolute" ∨ v.type = "relative") :
    ∃ rq, viewRow n tickers v = .ok rq := by
  obtain ⟨idxs, hok, -, -⟩ :=
    mapE_ok_of_forall (tickersIndex tickers) v.assets (fun a hma => tickersIndex_ok (ha a hma))
  cases ht with
  | inl habs =>
    simp only [viewRow, hok, habs]
    simp only [reduceIte]
    exact ⟨_, rfl⟩
  | inr hrel =>
    by_cases h2 : 2 ≤ idxs.length
    · simp only [viewRow, hok, hrel]
      simp only [reduceIte, if_pos h2]
      exact ⟨_, rfl⟩
    · simp only [viewRow, hok, hrel]
      simp only [reduceIte, if_neg h2]
      exact ⟨_, rfl⟩

theorem viewRow_relative_short {n : ℕ} {tickers : List String} {v : ViewSpec}
    (ha : ∀ a ∈ v.assets, a ∈ tickers) (ht : v.type = "relative")
    (hshort : v.assets.length < 2) :
    viewRow n tickers v = .ok (fun _ => 0, 0) := by
  obtain ⟨idxs, hok, hlen, -⟩ :=
    mapE_ok_of_forall (tickersIndex tickers) v.assets (fun a hma => tickersIndex_ok (ha a hma))
  have h2 : ¬ 2 ≤ idxs.length := by omega
  simp [viewRow, hok, ht, h2]

/-- C10 counterexample: a `relative` view listing a single asset that is not
one of the model's tickers makes `add_views` raise (at `tickers.index`), so
the claim's "accepts the view without raising any error" fails, and a known
view type does not prevent the raise. -/
theorem c10_unknown_asset_counterexample :
    add_views blOneView [⟨["BBB"], 0, "relative"⟩] none = .error "BBB is not in list" := by
  rfl

/-- C10 amended: provided every asset mentioned by the views is one of the
model's tickers (the claim as stated fails when it is not: `tickers.index`
raises) and the equilibrium returns and covariance are present, `add_views`
accepts `absolute` and `relative` views without raising, and a `relative`
view listing fewer than two assets gets an all-zero pick-matrix row with
`Q_i = 0`; a view whose type is neither `absolute` nor `relative` makes
`add_views` raise `Unknown view type`. -/
theorem c10_add_views_amended {n : ℕ} :
    (∀ (s : BLState n) (vs : List ViewSpec) (Sigma : Matrix (Fin n) (Fin n) ℚ)
      (eq0 : Fin n → ℚ),
      s.equilibrium_returns = some eq0 → s.cov_matrix = some Sigma →
      (∀ v ∈ vs, (∀ a ∈ v.assets, a ∈ s.tickers) ∧
        (v.type = "absolute" ∨ v.type = "relative")) →
      ∃ (b : BLViews n) (s' : BLState n), add_views s vs none = .ok (b, s') ∧
        s'.views = some b ∧ b.k = vs.length ∧
        ∀ (i : ℕ) (hi : i < vs.length) (hk : i < b.k),
          (vs.get ⟨i, hi⟩).type = "relative" → (vs.get ⟨i, hi⟩).assets.length < 2 →
          (∀ j, b.P ⟨i, hk⟩ j = 0) ∧ b.Q ⟨i, hk⟩ = 0) ∧
    (∀ (s : BLState n) (v : ViewSpec) (eq0 : Fin n → ℚ),
      s.equilibrium_returns = some eq0 →
      (∀ a ∈ v.assets, a ∈ s.tickers) →
      v.type ≠ "absolute" → v.type ≠ "relative" →
      add_views s [v] none = .error ("Unknown view type: " ++ v.type)) := by
  constructor
  · intro s vs Sigma eq0 heq hc hvs
    obtain ⟨rows, hrows, hlenr, hidx⟩ :=
      mapE_ok_of_forall (viewRow n s.tickers) vs
        (fun v hv => viewRow_ok (hvs v hv).1 (hvs v hv).2)
    have hconf : ¬ (List.replicate vs.length ((1 : ℚ)/2)).length < rows.length := by
      simp [hlenr]
    set B := viewBundle s.tau Sigma rows (List.replicate vs.length (1/2)) with hB
    have hmain : add_views s vs none = .ok (B, { s with views := some B }) := by
      simp only [add_views, heq, hc, hrows, bind, Except.bind, pure, Except.pure,
        Option.getD_none, if_neg hconf]
    refine ⟨_, _, hmain, rfl, hlenr, ?_⟩
    intro i hi hk hrel hshort
    have hr : rows.get ⟨i, hk⟩ = (fun _ => 0, 0) := by
      have h1 := hidx i hi hk
      rw [viewRow_relative_short (hvs _ (vs.get_mem _ _)).1 hrel hshort] at h1
      exact (Except.ok.injEq _ _).mp h1.symm
    constructor
    · intro j
      show (rows.get ⟨i, hk⟩).1 j = 0
      rw [hr]
    · show (rows.get ⟨i, hk⟩).2 = 0
      rw [hr]
  · intro s v eq0 heq ha ht1 ht2
    obtain ⟨idxs, hok, -, -⟩ :=
      mapE_ok_of_forall (tickersIndex s.tickers) v.assets
        (fun a hma => tickersIndex_ok (ha a hma))
    have hrow : viewRow n s.tickers v = .error ("Unknown view type: " ++ v.type) := by
      simp [viewRow, hok, ht1, ht2]
    simp [add_views, heq, bind, Except.bind, pure, Except.pure, mapE, hrow]

theorem c10_add_views_amended_witness :
    blOneView.equilibrium_returns = some ![1/20] ∧
    blOneView.cov_matrix = some covOne ∧
    (∀ v ∈ [ViewSpec.mk ["AAA"] (7/100) "relative"],
      (∀ a ∈ v.assets, a ∈ blOneView.tickers) ∧
      (v.type = "absolute" ∨ v.type = "relative")) ∧
    (∃ (b : BLViews 1) (s' : BLState 1),
      add_views blOneView [ViewSpec.mk ["AAA"] (7/100) "relative"] none = .ok (b, s') ∧
      s'.views = some b ∧ b.k = 1 ∧
      ∀ (i : ℕ) (hi : i < 1) (hk : i < b.k),
        ([ViewSpec.mk ["AAA"] (7/100) "relative"].get ⟨i, hi⟩).type = "relative" →
        ([ViewSpec.mk ["AAA"] (7/100) "relative"].get ⟨i, hi⟩).assets.length < 2 →
        (∀ j, b.P ⟨i, hk⟩ j = 0) ∧ b.Q ⟨i, hk⟩ = 0) := by
  refine ⟨rfl, rfl, ?_, ?_⟩
  · decide
  · exact (c10_add_views_amended).1 blOneView _ covOne ![1/20] rfl rfl (by decide)

/-! ## Plain optimizer: portfolio statistics (optimizer.py, class PortfolioOptimizer)

The statistics take a square root, so this side of the embedding lives in `ℝ`
(idealizing IEEE doubles as reals; `np.sqrt` of a negative number is `NaN`,
which the source's `np.isnan` guard turns into the fallback — modelled by the
explicit `q < 0` branch below). -/

open scoped Classical

/-- The fields of a `PortfolioOptimizer` instance that `portfolio_stats` and
the optimization entry points read (`self.mean_returns`/`self.cov_matrix`
are `None` until `fetch_data` succeeds). -/
structure OptimizerState where
  tickers : List String
  mean_returns : Option (List ℝ)
  cov_matrix : Option (List (List ℝ))

/-- The statistics dict returned by `portfolio_stats`
(`return`, `real_return`, `volatility`, `sharpe_ratio`, `real_sharpe_ratio`,
`inflation_rate`); `ret` models the key `return`, a reserved word in Lean. -/
structure PStats where
  ret : ℝ
  real_return : ℝ
  volatility : ℝ
  sharpe_ratio : ℝ
  real_sharpe_ratio : ℝ
  inflation_rate : ℝ

/-- A `portfolio_stats` outcome together with whether the warning branch
(`print("Warning: Error in portfolio_stats: ...")`) fired. -/
structure PStatsResult where
  stats : PStats
  warned : Bool

/-- `np.sum(xs * ys)` for two equal-length 1-d arrays. -/
noncomputable def dotL (xs ys : List ℝ) : ℝ :=
  (List.zipWith (fun a b => a * b) xs ys).sum

/-- `np.dot(m, v)` for a matrix (list of rows) and a vector. -/
noncomputable def matVecL (m : List (List ℝ)) (v : List ℝ) : List ℝ :=
  m.map (fun row => dotL row v)

/-- The quadratic form `np.dot(w.T, np.dot(cov, w))`. -/
noncomputable def quadFormL (m : List (List ℝ)) (v : List ℝ) : ℝ :=
  dotL v (matVecL m v)

/-- `PortfolioOptimizer.get_inflation_rate`: always the default 2.5%. -/
noncomputable def get_inflation_rate : ℝ := 25/1000

/-- The literal fallback dict of `portfolio_stats`'s `except` branch, plus
the warning it prints. -/
noncomputable def fallbackStatsResult : PStatsResult :=
  ⟨⟨8/100, 55/1000, 15/100, 53/100, 37/100, 25/1000⟩, true⟩

/-- The return/volatility/Sharpe computation of `portfolio_stats` on the
(possibly renormalized) weight vector: a negative quadratic form makes
`np.sqrt` produce `NaN`, the `np.isnan` guard raises, and the `except`
branch returns the fallback. -/
noncomputable def statsCore (mu : List ℝ) (cov : List (List ℝ)) (w : List ℝ) : PStatsResult :=
  let portfolio_return := dotL mu w
  let q := quadFormL cov w
  if q < 0 then fallbackStatsResult
  else
    let portfolio_std := Real.sqrt q
    let sharpe_ratio := if portfolio_std > 0 then portfolio_return / portfolio_std else 0
    let real_return := portfolio_return - get_inflation_rate
    let real_sharpe_ratio := if portfolio_std > 0 then real_return / portfolio_std else 0
    ⟨⟨portfolio_return, real_return, portfolio_std, sharpe_ratio,
      real_sharpe_ratio, get_inflation_rate⟩, false⟩

/-- `PortfolioOptimizer.portfolio_stats(weights)`:
shape check, moments check, silent renormalization when the weights do not
sum to 1 (tolerance 1e-6), then return/volatility/Sharpe (zero risk-free
rate) and the inflation-adjusted variants via `statsCore`.  Every raised
error is caught and turned into the fallback record with a warning.
Renormalizing a zero-sum weight vector produces `NaN` statistics in numpy,
caught by the `np.isnan` guard — routed to the fallback. -/
noncomputable def portfolio_stats (st : OptimizerState) (weights : List ℝ) : PStatsResult :=
  if weights.length ≠ st.tickers.length then fallbackStatsResult
  else
    match st.mean_returns, st.cov_matrix with
    | some mu, some cov =>
      let s := weights.sum
      if |s - 1| > 1/1000000 ∧ s = 0 then fallbackStatsResult
      else
        let w := if |s - 1| > 1/1000000 then weights.map (fun x => x / s) else weights
        statsCore mu cov w
    | _, _ => fallbackStatsResult

/-! ## C6: fallback statistics -/

/-- C6: a weights vector of the wrong length, absent moment estimates, or
moments that produce NaN statistics — `np.sqrt` of a negative quadratic
form is the NaN source once floats are idealized as reals, caught by the
`np.isnan` guard — all make `portfolio_stats` return (not raise) the
fallback record with the literal sentinels return=0.08, volatility=0.15,
sharpe_ratio=0.53, and the warning fires. -/
theorem c6_portfolio_stats_fallback (st : OptimizerState) (weights : List ℝ) :
    (weights.length ≠ st.tickers.length → portfolio_stats st weights = fallbackStatsResult) ∧
    (st.mean_returns = none → portfolio_stats st weights = fallbackStatsResult) ∧
    (st.cov_matrix = none → portfolio_stats st weights = fallbackStatsResult) ∧
    (∀ (mu : List ℝ) (cov : List (List ℝ)),
      st.mean_returns = some mu → st.cov_matrix = some cov →
      weights.length = st.tickers.length →
      quadFormL cov (if |weights.sum - 1| > 1/1000000 then
        weights.map (fun x => x / weights.sum) else weights) < 0 →
      portfolio_stats st weights = fallbackStatsResult) ∧
    fallbackStatsResult.stats.ret = 8/100 ∧
    fallbackStatsResult.stats.volatility = 15/100 ∧
    fallbackStatsResult.stats.sharpe_ratio = 53/100 ∧
    fallbackStatsResult.warned = true := by
  refine ⟨?_, ?_, ?_, ?_, rfl, rfl, rfl, rfl⟩
  · intro h
    rw [portfolio_stats, if_pos h]
  · intro h
    rw [portfolio_stats, h]
    cases hc : st.cov_matrix <;> split <;> rfl
  · intro h
    rw [portfolio_stats, h]
    cases hm : st.mean_returns <;> split <;> rfl
  · intro mu cov hmu hcov hlen hq
    rw [portfolio_stats, if_neg (not_ne_iff.mpr hlen), hmu, hcov]
    show (if |weights.sum - 1| > 1/1000000 ∧ weights.sum = 0 then fallbackStatsResult
      else statsCore mu cov (if |weights.sum - 1| > 1/1000000 then
        weights.map (fun x => x / weights.sum) else weights)) = fallbackStatsResult
    by_cases hz : |weights.sum - 1| > 1/1000000 ∧ weights.sum = 0
    · rw [if_pos hz]
    · rw [if_neg hz]
      simp only [statsCore]
      rw [if_pos hq]

/-- Concrete optimizer state (valid moments for two assets) for witnesses. -/
noncomputable def stTwo : OptimizerState :=
  ⟨["AAA", "BBB"], some [1/10, 1/20], some [[1/25, 0], [0, 1/25]]⟩

/-- Concrete optimizer state whose moments are absent. -/
noncomputable def stNoData : OptimizerState := ⟨["AAA", "BBB"], none, none⟩

/-- Concrete one-asset optimizer state with a negative covariance entry, so
the quadratic form is negative and `np.sqrt` yields NaN statistics. -/
noncomputable def stNegCov : OptimizerState := ⟨["AAA"], some [1/10], some [[-1]]⟩

theorem c6_portfolio_stats_fallback_witness :
    ([(1 : ℝ)].length ≠ stTwo.tickers.length ∧
      portfolio_stats stTwo [(1 : ℝ)] = fallbackStatsResult) ∧
    (stNoData.mean_returns = none ∧
      portfolio_stats stNoData [(1 : ℝ), 0] = fallbackStatsResult) ∧
    (stNegCov.mean_returns = some [1/10] ∧
      stNegCov.cov_matrix = some [[-1]] ∧
      [(1 : ℝ)].length = stNegCov.tickers.length ∧
      quadFormL [[-1]] (if |[(1 : ℝ)].sum - 1| > 1/1000000 then
        [(1 : ℝ)].map (fun x => x / [(1 : ℝ)].sum) else [(1 : ℝ)]) < 0 ∧
      portfolio_stats stNegCov [(1 : ℝ)] = fallbackStatsResult) ∧
    fallbackStatsResult.stats.sharpe_ratio = 53/100 := by
  have hq : quadFormL [[-1]] (if |[(1 : ℝ)].sum - 1| > 1/1000000 then
      [(1 : ℝ)].map (fun x => x / [(1 : ℝ)].sum) else [(1 : ℝ)]) < 0 := by
    norm_num [quadFormL, dotL, matVecL, List.sum_cons]
  refine ⟨⟨?_, ?_⟩, ⟨rfl, ?_⟩, ⟨rfl, rfl, rfl, hq, ?_⟩, rfl⟩
  · show (1 : ℕ) ≠ 2
    decide
  · exact (c6_portfolio_stats_fallback stTwo [(1 : ℝ)]).1 (by show (1 : ℕ) ≠ 2; decide)
  · exact (c6_portfolio_stats_fallback stNoData [(1 : ℝ), 0]).2.1 rfl
  · exact (c6_portfolio_stats_fallback stNegCov [(1 : ℝ)]).2.2.2.1 [1/10] [[-1]] rfl rfl rfl hq

/-! ## Black-Litterman statistics path (black_litterman.py lines 233-269) -/

/-- The shared returns/covariance selection of the Black-Litterman methods
(`optimize_portfolio`, `portfolio_stats`, `generate_efficient_frontier`):
use posterior returns when present (with posterior covariance, falling back
to `self.cov_matrix` when that is `None`), otherwise equilibrium returns,
computing those first if needed.  Reading a still-`None` covariance is a
numpy error. -/
def blEnsureMoments {n : ℕ} (s : BLState n) :
    Except String ((Fin n → ℚ) × Matrix (Fin n) (Fin n) ℚ × BLState n) :=
  match s.posterior_returns with
  | some pr =>
    match s.posterior_cov with
    | some pc => .ok (pr, pc, s)
    | none =>
      match s.cov_matrix with
      | some c => .ok (pr, c, s)
      | none => .error "TypeError: unsupported operand type for cov_matrix None"
  | none =>
    match s.equilibrium_returns with
    | some eq0 =>
      match s.cov_matrix with
      | some c => .ok (eq0, c, s)
      | none => .error "TypeError: unsupported operand type for cov_matrix None"
    | none =>
      match calculate_equilibrium_returns s with
      | .error e => .error e
      | .ok (pi, s1) =>
        match s1.cov_matrix with
        | some c => .ok (pi, c, s1)
        | none => .error "TypeError: unsupported operand type for cov_matrix None"

/-- `BlackLittermanModel.portfolio_stats(weights)`: same statistics as the
plain optimizer but over the posterior (or equilibrium) moments, with the
explicit risk-free subtraction in the Sharpe ratio, and no `try/except`
fallback.  `volatility == 0` yields Sharpe ratios of 0. -/
noncomputable def bl_portfolio_stats {n : ℕ} (s : BLState n) (w : Fin n → ℚ) :
    Except String (PStats × BLState n) :=
  match blEnsureMoments s with
  | .error e => .error e
  | .ok (mu, cov, s1) =>
    let portfolio_return : ℚ := ∑ i, mu i * w i
    let q : ℚ := ∑ i, w i * cov.mulVec w i
    let portfolio_vol : ℝ := Real.sqrt ((q : ℚ) : ℝ)
    let sharpe_ratio : ℝ :=
      if portfolio_vol > 0 then
        (((portfolio_return : ℚ) : ℝ) - ((s.risk_free_rate : ℚ) : ℝ)) / portfolio_vol
      else 0
    let inflation_rate : ℝ := 25/1000
    let real_return : ℝ := ((portfolio_return : ℚ) : ℝ) - inflation_rate
    let real_sharpe_ratio : ℝ := if portfolio_vol > 0 then real_return / portfolio_vol else 0
    .ok (⟨((portfolio_return : ℚ) : ℝ), real_return, portfolio_vol, sharpe_ratio,
      real_sharpe_ratio, inflation_rate⟩, s1)

/-! ## C7: zero volatility yields zero Sharpe ratios -/

/-- Structural case split for `statsCore`: fallback, or the record whose
fields have their defining shapes. -/
theorem statsCore_cases (mu : List ℝ) (cov : List (List ℝ)) (w : List ℝ) :
    statsCore mu cov w = fallbackStatsResult ∨
    statsCore mu cov w =
      ⟨⟨dotL mu w, dotL mu w - get_inflation_rate, Real.sqrt (quadFormL cov w),
        (if Real.sqrt (quadFormL cov w) > 0 then
          dotL mu w / Real.sqrt (quadFormL cov w) else 0),
        (if Real.sqrt (quadFormL cov w) > 0 then
          (dotL mu w - get_inflation_rate) / Real.sqrt (quadFormL cov w) else 0),
        get_inflation_rate⟩, false⟩ := by
  simp only [statsCore]
  split
  · exact Or.inl rfl
  · exact Or.inr rfl

/-- Structural case split for `portfolio_stats`: either some guard fired and
the result is the fallback record, or it is `statsCore` on the (possibly
renormalized) weights. -/
theorem portfolio_stats_cases (st : OptimizerState) (weights : List ℝ) :
    portfolio_stats st weights = fallbackStatsResult ∨
    ∃ mu cov w, portfolio_stats st weights = statsCore mu cov w := by
  simp only [portfolio_stats]
  split
  · exact Or.inl rfl
  · split
    · split
      · exact Or.inl rfl
      · exact Or.inr ⟨_, _, _, rfl⟩
    · exact Or.inl rfl

/-- C7: whenever the computed portfolio volatility is 0, the plain
`portfolio_stats` and the Black-Litterman `portfolio_stats` both return
`sharpe_ratio = 0` and `real_sharpe_ratio = 0` instead of dividing by zero
or raising.  (In the plain path a zero volatility also certifies the main
computation ran: the fallback's volatility is 0.15.) -/
theorem c7_zero_volatility_sharpe :
    (∀ (st : OptimizerState) (weights : List ℝ),
      (portfolio_stats st weights).stats.volatility = 0 →
      (portfolio_stats st weights).stats.sharpe_ratio = 0 ∧
      (portfolio_stats st weights).stats.real_sharpe_ratio = 0) ∧
    (∀ (n : ℕ) (s : BLState n) (w : Fin n → ℚ) (out : PStats × BLState n),
      bl_portfolio_stats s w = .ok out → out.1.volatility = 0 →
      out.1.sharpe_ratio = 0 ∧ out.1.real_sharpe_ratio = 0) := by
  constructor
  · intro st weights hvol
    have hmain : ∀ (mu : List ℝ) (cov : List (List ℝ)) (w : List ℝ),
        portfolio_stats st weights = statsCore mu cov w →
        (portfolio_stats st weights).stats.sharpe_ratio = 0 ∧
        (portfolio_stats st weights).stats.real_sharpe_ratio = 0 := by
      intro mu cov w h
      rcases statsCore_cases mu cov w with hc | hc
      · rw [h, hc] at hvol
        have : (15 : ℝ)/100 = 0 := hvol
        norm_num at this
      · rw [h, hc] at hvol ⊢
        simp only at hvol ⊢
        rw [hvol]
        simp
    rcases portfolio_stats_cases st weights with h | ⟨mu, cov, w, h⟩
    · rw [h] at hvol
      have : (15 : ℝ)/100 = 0 := hvol
      norm_num at this
    · exact hmain mu cov w h
  · intro n s w out hout hvol
    rw [bl_portfolio_stats] at hout
    cases hm : blEnsureMoments s with
    | error e =>
      rw [hm] at hout
      simp at hout
    | ok t =>
      obtain ⟨mu, cov, s1⟩ := t
      rw [hm] at hout
      simp only at hout
      injection hout with hout2
      have h1 := (Prod.ext_iff.mp hout2).1
      rw [← h1] at hvol ⊢
      simp only at hvol ⊢
      rw [hvol]
      simp

/-- One-asset optimizer state with zero covariance (zero volatility). -/
noncomputable def stZeroCov : OptimizerState := ⟨["AAA"], some [1/10], some [[0]]⟩

/-- One-asset Black-Litterman state with zero posterior covariance. -/
def blStatsZero : BLState 1 where
  tickers := ["AAA"]
  hlen := rfl
  risk_free_rate := 1/50
  tau := 1/20
  delta := 5/2
  market_weights := fun _ => 1
  cov_matrix := some covOne
  equilibrium_returns := none
  views := none
  posterior_returns := some (fun _ => 1/10)
  posterior_cov := some (Matrix.of ![![0]])

theorem c7_zero_volatility_sharpe_witness :
    ((portfolio_stats stZeroCov [(1 : ℝ)]).stats.volatility = 0 ∧
      (portfolio_stats stZeroCov [(1 : ℝ)]).stats.sharpe_ratio = 0 ∧
      (portfolio_stats stZeroCov [(1 : ℝ)]).stats.real_sharpe_ratio = 0) ∧
    (∃ out : PStats × BLState 1,
      bl_portfolio_stats blStatsZero (fun _ => 1) = .ok out ∧ out.1.volatility = 0 ∧
      out.1.sharpe_ratio = 0 ∧ out.1.real_sharpe_ratio = 0) := by
  have hvol : (portfolio_stats stZeroCov [(1 : ℝ)]).stats.volatility = 0 := by
    rw [portfolio_stats]
    norm_num [stZeroCov, statsCore, dotL, matVecL, quadFormL]
  refine ⟨⟨hvol, (c7_zero_volatility_sharpe.1 stZeroCov [(1 : ℝ)] hvol).1,
    (c7_zero_volatility_sharpe.1 stZeroCov [(1 : ℝ)] hvol).2⟩, ?_⟩
  obtain ⟨out, hok⟩ : ∃ out, bl_portfolio_stats blStatsZero (fun _ => 1) = .ok out := ⟨_, rfl⟩
  have hvol2 : out.1.volatility = 0 := by
    have hq : (∑ i : Fin 1, (fun _ => (1 : ℚ)) i *
        (Matrix.of ![![(0 : ℚ)]]).mulVec (fun _ => 1) i) = 0 := by
      norm_num [Matrix.mulVec, Matrix.dotProduct, Fin.sum_univ_one]
    have : bl_portfolio_stats blStatsZero (fun _ => 1) = .ok out := hok
    rw [bl_portfolio_stats] at this
    simp only [blEnsureMoments, blStatsZero] at this
    injection this with h2
    have h1 := (Prod.ext_iff.mp h2).1
    rw [← h1]
    simp only [hq]
    simp
  exact ⟨out, hok, hvol2,
    (c7_zero_volatility_sharpe.2 1 blStatsZero (fun _ => 1) out hok hvol2).1,
    (c7_zero_volatility_sharpe.2 1 blStatsZero (fun _ => 1) out hok hvol2).2⟩

/-! ## C9: silent renormalization (scale invariance) -/

theorem sum_map_div (l : List ℝ) (c : ℝ) :
    (l.map (fun x => x / c)).sum = l.sum / c := by
  induction l with
  | nil => simp
  | cons x xs ih => simp [ih, add_div]

/-- C9: for weights of the right length whose sum `s` is positive and farther
than 1e-6 from 1, and with moment estimates present, `portfolio_stats`
returns exactly the statistics of the renormalized vector `w / s` — the
function silently renormalizes instead of rejecting. -/
theorem c9_portfolio_stats_scale_invariance (st : OptimizerState) (weights : List ℝ)
    (mu : List ℝ) (cov : List (List ℝ))
    (hmu : st.mean_returns = some mu) (hcov : st.cov_matrix = some cov)
    (hlen : weights.length = st.tickers.length)
    (hfar : |weights.sum - 1| > 1/1000000) (hpos : 0 < weights.sum) :
    portfolio_stats st weights =
      portfolio_stats st (weights.map (fun x => x / weights.sum)) := by
  have hs0 : weights.sum ≠ 0 := ne_of_gt hpos
  have hL : portfolio_stats st weights =
      statsCore mu cov (weights.map (fun x => x / weights.sum)) := by
    rw [portfolio_stats, if_neg (not_ne_iff.mpr hlen), hmu, hcov]
    show (if |weights.sum - 1| > 1/1000000 ∧ weights.sum = 0 then fallbackStatsResult
      else statsCore mu cov (if |weights.sum - 1| > 1/1000000 then
        weights.map (fun x => x / weights.sum) else weights)) = _
    rw [if_neg (fun hand => hs0 hand.2), if_pos hfar]
  have hlen2 : (weights.map (fun x => x / weights.sum)).length = st.tickers.length := by
    simpa using hlen
  have hsum2 : (weights.map (fun x => x / weights.sum)).sum = 1 := by
    rw [sum_map_div]
    exact div_self hs0
  have hR : portfolio_stats st (weights.map (fun x => x / weights.sum)) =
      statsCore mu cov (weights.map (fun x => x / weights.sum)) := by
    rw [portfolio_stats, if_neg (not_ne_iff.mpr hlen2), hmu, hcov]
    show (if |(weights.map (fun x => x / weights.sum)).sum - 1| > 1/1000000 ∧
        (weights.map (fun x => x / weights.sum)).sum = 0 then fallbackStatsResult
      else statsCore mu cov
        (if |(weights.map (fun x => x / weights.sum)).sum - 1| > 1/1000000 then
          (weights.map (fun x => x / weights.sum)).map
            (fun x => x / (weights.map (fun x => x / weights.sum)).sum)
        else weights.map (fun x => x / weights.sum))) = _
    rw [hsum2]
    norm_num
  rw [hL, hR]

theorem c9_portfolio_stats_scale_invariance_witness :
    stTwo.mean_returns = some [1/10, 1/20] ∧
    stTwo.cov_matrix = some [[1/25, 0], [0, 1/25]] ∧
    [(2 : ℝ), 0].length = stTwo.tickers.length ∧
    |[(2 : ℝ), 0].sum - 1| > 1/1000000 ∧ 0 < [(2 : ℝ), 0].sum ∧
    portfolio_stats stTwo [(2 : ℝ), 0] =
      portfolio_stats stTwo ([(2 : ℝ), 0].map (fun x => x / [(2 : ℝ), 0].sum)) := by
  have h1 : |[(2 : ℝ), 0].sum - 1| > 1/1000000 := by
    norm_num [List.sum_cons]
  have h2 : (0 : ℝ) < [(2 : ℝ), 0].sum := by
    norm_num [List.sum_cons]
  exact ⟨rfl, rfl, rfl, h1, h2,
    c9_portfolio_stats_scale_invariance stTwo [(2 : ℝ), 0] [1/10, 1/20]
      [[1/25, 0], [0, 1/25]] rfl rfl rfl h1 h2⟩

/-! ## Constrained optimization entry points (optimizer.py, black_litterman.py)

`scipy.optimize.minimize` (SLSQP) is an external numerical collaborator.  It
is modelled as an oracle from the constructed problem — objective name,
initial guess and per-asset bounds (the sum-to-one equality constraint is
common to every call) — to a result record with the fields the source reads:
`result.x`, `result.success`, `result.message`. -/

/-- The optimization problem handed to `scipy.optimize.minimize`. -/
structure MinimizeCall where
  objective : String
  initial : List ℝ
  bounds : List (ℝ × ℝ)

/-- The `scipy.optimize.OptimizeResult` fields the source consumes. -/
structure SolverResult where
  x : List ℝ
  success : Bool
  message : String

/-- `PortfolioOptimizer.negative_sharpe`, the max-Sharpe objective
(minimize the negative Sharpe ratio). -/
noncomputable def negative_sharpe (st : OptimizerState) (w : List ℝ) : ℝ :=
  -(portfolio_stats st w).stats.sharpe_ratio

/-- `PortfolioOptimizer.optimize_portfolio(constraint)`: equal-weight initial
guess, bounds [0,1]; returns `result.x` with no success check and no warning.
An unrecognized constraint leaves `result` unbound — a `NameError`. -/
noncomputable def optimize_portfolio (st : OptimizerState) (constraint : String)
    (minimize : MinimizeCall → SolverResult) : Except String (List ℝ) :=
  let num_assets := st.tickers.length
  let initial_weights := List.replicate num_assets ((1 : ℝ) / num_assets)
  let bounds := List.replicate num_assets ((0 : ℝ), (1 : ℝ))
  if constraint = "max_sharpe" then
    .ok (minimize ⟨"negative_sharpe", initial_weights, bounds⟩).x
  else if constraint = "min_volatility" then
    .ok (minimize ⟨"volatility", initial_weights, bounds⟩).x
  else .error "NameError: name result is not defined"

/-- The result dict of the minimum-allocation optimizers (the uniform variant
reports its scalar `min_allocation`, the custom variant the list; both are
modelled by the per-asset list actually used as bounds). -/
structure MinAllocResult where
  weights : List ℝ
  stats : PStatsResult
  constraint_used : String
  min_allocations : List ℝ

/-- The post-validation part shared by `optimize_with_minimum_allocation` and
`optimize_with_custom_minimum_allocation`: solve from the minimum-allocation
initial guess with bounds `[min_i, 1]`; on success return weights and stats,
on solver failure raise `Exception("Optimization failed: ...")`. -/
noncomputable def minAllocSolve (st : OptimizerState) (constraint : String)
    (mins : List ℝ) (minimize : MinimizeCall → SolverResult) :
    Except String MinAllocResult :=
  if constraint = "max_sharpe" ∨ constraint = "min_volatility" then
    let objective := if constraint = "max_sharpe" then "negative_sharpe" else "volatility"
    let result := minimize ⟨objective, mins, mins.map (fun m => (m, (1 : ℝ)))⟩
    if result.success then
      .ok ⟨result.x, portfolio_stats st result.x, constraint, mins⟩
    else .error ("Optimization failed: " ++ result.message)
  else .error "NameError: name result is not defined"

/-- `PortfolioOptimizer.optimize_with_minimum_allocation(constraint, min_allocation)`:
validates `1 - min_allocation * num_assets >= 0` before any solver call,
then proceeds as `minAllocSolve` with the uniform minimum vector. -/
noncomputable def optimize_with_minimum_allocation (st : OptimizerState)
    (constraint : String) (min_allocation : ℝ)
    (minimize : MinimizeCall → SolverResult) : Except String MinAllocResult :=
  let num_assets := st.tickers.length
  let total_min_weight := min_allocation * num_assets
  let remaining_weight := 1 - total_min_weight
  if remaining_weight < 0 then
    .error "Minimum allocation too high for number of assets"
  else minAllocSolve st constraint (List.replicate num_assets min_allocation) minimize

/-- `PortfolioOptimizer.optimize_with_custom_minimum_allocation(constraint,
min_allocations)`: `None` delegates to the uniform variant at 1%; otherwise
the list length is validated, then `sum(min_allocations) <= 1` is validated
before any solver call, then `minAllocSolve`. -/
noncomputable def optimize_with_custom_minimum_allocation (st : OptimizerState)
    (constraint : String) (min_allocations : Option (List ℝ))
    (minimize : MinimizeCall → SolverResult) : Except String MinAllocResult :=
  match min_allocations with
  | none => optimize_with_minimum_allocation st constraint (1/100) minimize
  | some mins =>
    if mins.length ≠ st.tickers.length then
      .error "Number of minimum allocations must match number of assets"
    else
      let total_min_weight := mins.sum
      let remaining_weight := 1 - total_min_weight
      if remaining_weight < 0 then
        .error "Total minimum allocation exceeds 100 percent"
      else minAllocSolve st constraint mins minimize

/-- The optimization problem handed to `minimize` by the Black-Litterman
`optimize_portfolio` (uniform bounds `[min_weight, max_weight]`). -/
structure MinimizeCallQ (n : ℕ) where
  objective : String
  initial : Fin n → ℚ
  min_weight : ℚ
  max_weight : ℚ

/-- Solver result for the Black-Litterman path (exact-rational iterate). -/
structure SolverResultQ (n : ℕ) where
  x : Fin n → ℚ
  success : Bool
  message : String

/-- `BlackLittermanModel.optimize_portfolio(constraint, min_weight, max_weight)`:
selects posterior (or equilibrium) moments, rejects an unknown constraint
with `ValueError`, solves, and on non-convergence emits
`warnings.warn("Optimization failed: ...")` while still returning
`result.x`. -/
def bl_optimize_portfolio {n : ℕ} (s : BLState n) (constraint : String)
    (min_weight max_weight : ℚ) (minimize : MinimizeCallQ n → SolverResultQ n) :
    Except String ((Fin n → ℚ) × List String × BLState n) :=
  match blEnsureMoments s with
  | .error e => .error e
  | .ok (_, _, s1) =>
    if constraint = "max_sharpe" ∨ constraint = "min_volatility" then
      let objective := if constraint = "max_sharpe" then "neg_sharpe" else "volatility"
      let result := minimize ⟨objective, fun _ => 1 / (n : ℚ), min_weight, max_weight⟩
      let warns := if result.success then [] else ["Optimization failed: " ++ result.message]
      .ok (result.x, warns, s1)
    else .error ("Unknown constraint: " ++ constraint)

/-! ## C5: infeasible minimum-allocation validation -/

/-- C5: a minimum-allocation configuration whose per-asset minimums sum to
more than 1 makes both minimum-allocation optimizers raise the validation
error before any solver call (the result is this error for every solver
oracle, i.e. independent of the solver); a configuration summing to at most
1 passes the validation and proceeds to the solve phase. -/
theorem c5_min_allocation_validation (st : OptimizerState) (constraint : String) :
    (∀ (min_allocation : ℝ), 1 < min_allocation * st.tickers.length →
      ∀ minimize, optimize_with_minimum_allocation st constraint min_allocation minimize =
        .error "Minimum allocation too high for number of assets") ∧
    (∀ (min_allocation : ℝ), min_allocation * st.tickers.length ≤ 1 →
      ∀ minimize, optimize_with_minimum_allocation st constraint min_allocation minimize =
        minAllocSolve st constraint
          (List.replicate st.tickers.length min_allocation) minimize) ∧
    (∀ (mins : List ℝ), mins.length = st.tickers.length → 1 < mins.sum →
      ∀ minimize, optimize_with_custom_minimum_allocation st constraint (some mins) minimize =
        .error "Total minimum allocation exceeds 100 percent") ∧
    (∀ (mins : List ℝ), mins.length = st.tickers.length → mins.sum ≤ 1 →
      ∀ minimize, optimize_with_custom_minimum_allocation st constraint (some mins) minimize =
        minAllocSolve st constraint mins minimize) := by
  refine ⟨?_, ?_, ?_, ?_⟩
  · intro m hm minimize
    rw [optimize_with_minimum_allocation, if_pos (by linarith)]
  · intro m hm minimize
    rw [optimize_with_minimum_allocation, if_neg (by simp; linarith)]
  · intro mins hlen hsum minimize
    simp only [optimize_with_custom_minimum_allocation]
    rw [if_neg (not_ne_iff.mpr hlen), if_pos (by linarith : (1 : ℝ) - mins.sum < 0)]
  · intro mins hlen hsum minimize
    simp only [optimize_with_custom_minimum_allocation]
    rw [if_neg (not_ne_iff.mpr hlen),
      if_neg (not_lt.mpr (by linarith : (0 : ℝ) ≤ 1 - mins.sum))]

/-- Solver oracle that reports success with the initial guess. -/
noncomputable def anySolver : MinimizeCall → SolverResult :=
  fun c => ⟨c.initial, true, "Optimization terminated successfully."⟩

theorem c5_min_allocation_validation_witness :
    (1 < (3/5 : ℝ) * stTwo.tickers.length ∧
      optimize_with_minimum_allocation stTwo "max_sharpe" (3/5) anySolver =
        .error "Minimum allocation too high for number of assets") ∧
    ((1/100 : ℝ) * stTwo.tickers.length ≤ 1 ∧
      optimize_with_minimum_allocation stTwo "max_sharpe" (1/100) anySolver =
        minAllocSolve stTwo "max_sharpe"
          (List.replicate stTwo.tickers.length (1/100)) anySolver) := by
  have h1 : 1 < (3/5 : ℝ) * stTwo.tickers.length := by
    show 1 < (3/5 : ℝ) * (2 : ℕ)
    norm_num
  have h2 : (1/100 : ℝ) * stTwo.tickers.length ≤ 1 := by
    show (1/100 : ℝ) * (2 : ℕ) ≤ 1
    norm_num
  exact ⟨⟨h1, (c5_min_allocation_validation stTwo "max_sharpe").1 (3/5) h1 anySolver⟩,
    ⟨h2, (c5_min_allocation_validation stTwo "max_sharpe").2.1 (1/100) h2 anySolver⟩⟩

/-! ## C3: solver non-convergence handling -/

/-- Solver oracle that reports failure. -/
noncomputable def failSolver : MinimizeCall → SolverResult :=
  fun _ => ⟨[1/2, 1/2], false, "Iteration limit reached"⟩

/-- C3 counterexample: `optimize_with_minimum_allocation` raises
`Exception("Optimization failed: ...")` when the solver reports
non-convergence — the best-found iterate is not returned, contradicting the
claim that no single-optimization call raises on non-convergence. -/
theorem c3_nonconvergence_counterexample :
    optimize_with_minimum_allocation stTwo "max_sharpe" (1/100) failSolver =
      .error "Optimization failed: Iteration limit reached" := by
  rw [optimize_with_minimum_allocation, if_neg (by show ¬((1 : ℝ) - 1/100 * (2 : ℕ) < 0); norm_num)]
  rw [minAllocSolve, if_pos (Or.inl rfl)]
  simp [failSolver]

/-- C3 amended: on solver non-convergence the Black-Litterman
`optimize_portfolio` warns and still returns the best-found iterate, and the
plain `optimize_portfolio` returns the iterate with neither check nor
warning; but `optimize_with_minimum_allocation` and
`optimize_with_custom_minimum_allocation` raise an exception instead of
returning the iterate. -/
theorem c3_nonconvergence_amended :
    (∀ (n : ℕ) (s : BLState n) (pr : Fin n → ℚ) (pc : Matrix (Fin n) (Fin n) ℚ)
      (constraint : String) (minimize : MinimizeCallQ n → SolverResultQ n),
      s.posterior_returns = some pr → s.posterior_cov = some pc →
      constraint = "max_sharpe" ∨ constraint = "min_volatility" →
      bl_optimize_portfolio s constraint 0 1 minimize =
        .ok ((minimize ⟨(if constraint = "max_sharpe" then "neg_sharpe" else "volatility"),
            fun _ => 1 / (n : ℚ), 0, 1⟩).x,
          (if (minimize ⟨(if constraint = "max_sharpe" then "neg_sharpe" else "volatility"),
              fun _ => 1 / (n : ℚ), 0, 1⟩).success then []
            else ["Optimization failed: " ++
              (minimize ⟨(if constraint = "max_sharpe" then "neg_sharpe" else "volatility"),
                fun _ => 1 / (n : ℚ), 0, 1⟩).message]), s)) ∧
    (∀ (st : OptimizerState) (minimize : MinimizeCall → SolverResult),
      optimize_portfolio st "max_sharpe" minimize =
        .ok ((minimize ⟨"negative_sharpe",
          List.replicate st.tickers.length ((1 : ℝ) / st.tickers.length),
          List.replicate st.tickers.length ((0 : ℝ), (1 : ℝ))⟩).x)) ∧
    (∀ (st : OptimizerState) (min_allocation : ℝ) (minimize : MinimizeCall → SolverResult),
      min_allocation * st.tickers.length ≤ 1 →
      (minimize ⟨"negative_sharpe", List.replicate st.tickers.length min_allocation,
        (List.replicate st.tickers.length min_allocation).map
          (fun m => (m, (1 : ℝ)))⟩).success = false →
      optimize_with_minimum_allocation st "max_sharpe" min_allocation minimize =
        .error ("Optimization failed: " ++
          (minimize ⟨"negative_sharpe", List.replicate st.tickers.length min_allocation,
            (List.replicate st.tickers.length min_allocation).map
              (fun m => (m, (1 : ℝ)))⟩).message)) ∧
    (∀ (st : OptimizerState) (mins : List ℝ) (minimize : MinimizeCall → SolverResult),
      mins.length = st.tickers.length → mins.sum ≤ 1 →
      (minimize ⟨"negative_sharpe", mins,
        mins.map (fun m => (m, (1 : ℝ)))⟩).success = false →
      optimize_with_custom_minimum_allocation st "max_sharpe" (some mins) minimize =
        .error ("Optimization failed: " ++
          (minimize ⟨"negative_sharpe", mins,
            mins.map (fun m => (m, (1 : ℝ)))⟩).message)) := by
  refine ⟨?_, ?_, ?_, ?_⟩
  · intro n s pr pc constraint minimize hpr hpc hc
    have hEns : blEnsureMoments s = .ok (pr, pc, s) := by
      simp only [blEnsureMoments, hpr, hpc]
    rw [bl_optimize_portfolio, hEns]
    simp only []
    rw [if_pos hc]
  · intro st minimize
    rw [optimize_portfolio]
    simp only [reduceIte]
  · intro st m minimize hm hfail
    rw [(c5_min_allocation_validation st "max_sharpe").2.1 m hm minimize]
    rw [minAllocSolve, if_pos (Or.inl rfl)]
    simp only [reduceIte, hfail, Bool.false_eq_true, ite_false]
  · intro st mins minimize hlen hsum hfail
    rw [(c5_min_allocation_validation st "max_sharpe").2.2.2 mins hlen hsum minimize]
    rw [minAllocSolve, if_pos (Or.inl rfl)]
    simp only [reduceIte, hfail, Bool.false_eq_true, ite_false]

/-- Failing rational solver for the Black-Litterman witness. -/
def failSolverQ : MinimizeCallQ 1 → SolverResultQ 1 :=
  fun _ => ⟨fun _ => 1, false, "no convergence"⟩

theorem c3_nonconvergence_amended_witness :
    (blStatsZero.posterior_returns = some (fun _ => 1/10) ∧
      blStatsZero.posterior_cov = some (Matrix.of ![![0]]) ∧
      bl_optimize_portfolio blStatsZero "max_sharpe" 0 1 failSolverQ =
        .ok ((failSolverQ ⟨(if "max_sharpe" = "max_sharpe" then "neg_sharpe" else "volatility"),
            fun _ => 1 / ((1 : ℕ) : ℚ), 0, 1⟩).x,
          (if (failSolverQ ⟨(if "max_sharpe" = "max_sharpe" then "neg_sharpe" else "volatility"),
              fun _ => 1 / ((1 : ℕ) : ℚ), 0, 1⟩).success then []
            else ["Optimization failed: " ++
              (failSolverQ ⟨(if "max_sharpe" = "max_sharpe" then "neg_sharpe" else "volatility"),
                fun _ => 1 / ((1 : ℕ) : ℚ), 0, 1⟩).message]),
          blStatsZero)) ∧
    ((1/100 : ℝ) * stTwo.tickers.length ≤ 1 ∧
      (failSolver ⟨"negative_sharpe", List.replicate stTwo.tickers.length (1/100),
        (List.replicate stTwo.tickers.length (1/100)).map
          (fun m => (m, (1 : ℝ)))⟩).success = false ∧
      optimize_with_minimum_allocation stTwo "max_sharpe" (1/100) failSolver =
        .error ("Optimization failed: " ++
          (failSolver ⟨"negative_sharpe", List.replicate stTwo.tickers.length (1/100),
            (List.replicate stTwo.tickers.length (1/100)).map
              (fun m => (m, (1 : ℝ)))⟩).message)) := by
  have h2 : (1/100 : ℝ) * stTwo.tickers.length ≤ 1 := by
    show (1/100 : ℝ) * (2 : ℕ) ≤ 1
    norm_num
  exact ⟨⟨rfl, rfl,
    c3_nonconvergence_amended.1 1 blStatsZero (fun _ => 1/10) (Matrix.of ![![0]])
      "max_sharpe" failSolverQ rfl rfl (Or.inl rfl)⟩,
    h2, rfl, c3_nonconvergence_amended.2.2.1 stTwo (1/100) failSolver h2 rfl⟩

/-! ## Frontier generation with risk-free rate (optimizer.py lines 374-424) -/

/-- One entry of the `efficient_portfolios` list built by
`generate_efficient_frontier`: its `sharpe_ratio` field was stored by
`portfolio_stats`, i.e. computed as `return / volatility` with zero
risk-free rate (`sharpe_ratio = portfolio_return / portfolio_std`).  Exact
rationals stand in for the floats. -/
structure FrontierPoint where
  ret : ℚ
  volatility : ℚ
  sharpe_ratio : ℚ
  weights : List ℚ
deriving DecidableEq

/-- Python's `max(points, key=lambda x: x['sharpe_ratio'])`: scan keeping the
current maximum, replacing it only on a strictly larger key (first maximum
wins ties). -/
def maxBySharpe (p : FrontierPoint) (ps : List FrontierPoint) : FrontierPoint :=
  ps.foldl (fun c q => if c.sharpe_ratio < q.sharpe_ratio then q else c) p

/-- One Capital Allocation Line entry
`(return, volatility, risk_free_weight, portfolio_weight)`. -/
def calPoints (risk_free_rate : ℚ) (t : FrontierPoint) : List (ℚ × ℚ × ℚ × ℚ) :=
  (List.range 21).map (fun i =>
    let risk_free_weight : ℚ := (i : ℚ) / 20
    let portfolio_weight := 1 - risk_free_weight
    (risk_free_rate * risk_free_weight + t.ret * portfolio_weight,
      t.volatility * portfolio_weight, risk_free_weight, portfolio_weight))

/-- The result dict of `generate_efficient_frontier_with_risk_free`. -/
structure FrontierRF where
  efficient_frontier : List FrontierPoint
  capital_allocation_line : List (ℚ × ℚ × ℚ × ℚ)
  tangency_portfolio : FrontierPoint
  risk_free_rate : ℚ
deriving DecidableEq

/-- `PortfolioOptimizer.generate_efficient_frontier_with_risk_free`:
given the frontier points from `generate_efficient_frontier` (the solver
sweep, an external collaborator here), an empty sweep raises (caught by the
fallback path); otherwise the tangency portfolio is selected as the point
with the maximum stored `sharpe_ratio` and the CAL is interpolated with the
supplied risk-free rate. -/
def generate_efficient_frontier_with_risk_free
    (efficient_portfolios : List FrontierPoint) (risk_free_rate : ℚ) :
    Except String FrontierRF :=
  match efficient_portfolios with
  | [] => .error "No efficient portfolios available"
  | p :: ps =>
    let t := maxBySharpe p ps
    .ok ⟨p :: ps, calPoints risk_free_rate t, t, risk_free_rate⟩

/-! ## C4: tangency-portfolio selection -/

/-- C4 counterexample: two legitimate frontier points (each with
`sharpe_ratio = return / volatility`, as `portfolio_stats` stores it) and
risk-free rate 0.02 for which the selected tangency portfolio is NOT the
point maximizing `(return - riskFreeRate) / volatility`: the selection
maximizes the stored zero-risk-free Sharpe instead. -/
theorem c4_tangency_counterexample :
    (FrontierPoint.mk (1/10) (1/10) 1 [1]).sharpe_ratio =
      (1/10 : ℚ) / (1/10) ∧
    (FrontierPoint.mk (1/20) (1/25) (5/4) [1]).sharpe_ratio =
      (1/20 : ℚ) / (1/25) ∧
    (∃ out : FrontierRF,
      generate_efficient_frontier_with_risk_free
        [FrontierPoint.mk (1/10) (1/10) 1 [1], FrontierPoint.mk (1/20) (1/25) (5/4) [1]]
        (1/50) = .ok out ∧
      out.tangency_portfolio = FrontierPoint.mk (1/20) (1/25) (5/4) [1] ∧
      FrontierPoint.mk (1/10) (1/10) 1 [1] ∈
        [FrontierPoint.mk (1/10) (1/10) 1 [1], FrontierPoint.mk (1/20) (1/25) (5/4) [1]] ∧
      (out.tangency_portfolio.ret - 1/50) / out.tangency_portfolio.volatility <
        ((FrontierPoint.mk (1/10) (1/10) 1 [1]).ret - 1/50) /
          (FrontierPoint.mk (1/10) (1/10) 1 [1]).volatility) := by
  have hT : maxBySharpe (FrontierPoint.mk (1/10) (1/10) 1 [1])
      [FrontierPoint.mk (1/20) (1/25) (5/4) [1]] =
      FrontierPoint.mk (1/20) (1/25) (5/4) [1] := by
    simp only [maxBySharpe, List.foldl]
    split
    · rfl
    · next h =>
      exact absurd (by norm_num :
        (FrontierPoint.mk (1/10 : ℚ) (1/10) 1 [1]).sharpe_ratio <
          (FrontierPoint.mk (1/20 : ℚ) (1/25) (5/4) [1]).sharpe_ratio) h
  refine ⟨by norm_num, by norm_num, ⟨_, rfl, ?_, ?_, ?_⟩⟩
  · simp only [generate_efficient_frontier_with_risk_free, hT]
  · exact List.mem_cons_self _ _
  · simp only [generate_efficient_frontier_with_risk_free, hT]
    norm_num

theorem maxBySharpe_mem (p : FrontierPoint) (ps : List FrontierPoint) :
    maxBySharpe p ps ∈ p :: ps := by
  induction ps generalizing p with
  | nil => exact List.mem_cons_self p []
  | cons q qs ih =>
    show maxBySharpe (if p.sharpe_ratio < q.sharpe_ratio then q else p) qs ∈ p :: q :: qs
    rcases List.mem_cons.mp
      (ih (if p.sharpe_ratio < q.sharpe_ratio then q else p)) with h | h
    · rw [h]
      by_cases hpq : p.sharpe_ratio < q.sharpe_ratio
      · rw [if_pos hpq]
        exact List.mem_cons_of_mem p (List.mem_cons_self q qs)
      · rw [if_neg hpq]
        exact List.mem_cons_self p (q :: qs)
    · exact List.mem_cons_of_mem p (List.mem_cons_of_mem q h)

theorem maxBySharpe_ge (p : FrontierPoint) (ps : List FrontierPoint) :
    ∀ r ∈ p :: ps, r.sharpe_ratio ≤ (maxBySharpe p ps).sharpe_ratio := by
  induction ps generalizing p with
  | nil =>
    intro r hr
    rcases List.mem_cons.mp hr with h | h
    · rw [h]
      exact le_rfl
    · cases h
  | cons q qs ih =>
    intro r hr
    have hstep : maxBySharpe p (q :: qs) =
        maxBySharpe (if p.sharpe_ratio < q.sharpe_ratio then q else p) qs := rfl
    have hple : p.sharpe_ratio ≤
        (if p.sharpe_ratio < q.sharpe_ratio then q else p).sharpe_ratio := by
      by_cases hpq : p.sharpe_ratio < q.sharpe_ratio
      · rw [if_pos hpq]; exact le_of_lt hpq
      · rw [if_neg hpq]
    have hqle : q.sharpe_ratio ≤
        (if p.sharpe_ratio < q.sharpe_ratio then q else p).sharpe_ratio := by
      by_cases hpq : p.sharpe_ratio < q.sharpe_ratio
      · rw [if_pos hpq]
      · rw [if_neg hpq]; exact le_of_not_lt hpq
    have hhd := ih (if p.sharpe_ratio < q.sharpe_ratio then q else p)
      _ (List.mem_cons_self _ qs)
    rcases List.mem_cons.mp hr with h | h
    · rw [h, hstep]
      exact le_trans hple hhd
    · rcases List.mem_cons.mp h with h2 | h2
      · rw [h2, hstep]
        exact le_trans hqle hhd
      · rw [hstep]
        exact ih _ r (List.mem_cons_of_mem _ h2)

/-- C4 amended: for a non-empty generated frontier,
`generate_efficient_frontier_with_risk_free` selects as tangency portfolio a
generated point maximizing the STORED `sharpe_ratio` field — which
`portfolio_stats` computed as `return / volatility` with zero risk-free rate
— by a scan over the already-computed points (no separate optimization);
the supplied risk-free rate is used only for the Capital Allocation Line,
not for the selection. -/
theorem c4_tangency_amended (p : FrontierPoint) (ps : List FrontierPoint)
    (risk_free_rate : ℚ) :
    ∃ out : FrontierRF,
      generate_efficient_frontier_with_risk_free (p :: ps) risk_free_rate = .ok out ∧
      out.tangency_portfolio ∈ p :: ps ∧
      (∀ q ∈ p :: ps, q.sharpe_ratio ≤ out.tangency_portfolio.sharpe_ratio) ∧
      out.efficient_frontier = p :: ps ∧
      out.capital_allocation_line = calPoints risk_free_rate out.tangency_portfolio ∧
      out.risk_free_rate = risk_free_rate :=
  ⟨_, rfl, maxBySharpe_mem p ps, maxBySharpe_ge p ps, rfl, rfl, rfl⟩

theorem c4_tangency_amended_witness :
    ∃ out : FrontierRF,
      generate_efficient_frontier_with_risk_free
        [FrontierPoint.mk (1/10) (1/10) 1 [1], FrontierPoint.mk (1/20) (1/25) (5/4) [1]]
        (1/50) = .ok out ∧
      out.tangency_portfolio ∈
        [FrontierPoint.mk (1/10) (1/10) 1 [1], FrontierPoint.mk (1/20) (1/25) (5/4) [1]] ∧
      (∀ q ∈ [FrontierPoint.mk (1/10) (1/10) 1 [1],
          FrontierPoint.mk (1/20) (1/25) (5/4) [1]],
        q.sharpe_ratio ≤ out.tangency_portfolio.sharpe_ratio) ∧
      out.efficient_frontier =
        [FrontierPoint.mk (1/10) (1/10) 1 [1], FrontierPoint.mk (1/20) (1/25) (5/4) [1]] ∧
      out.capital_allocation_line = calPoints (1/50) out.tangency_portfolio ∧
      out.risk_free_rate = 1/50 :=
  c4_tangency_amended (FrontierPoint.mk (1/10) (1/10) 1 [1])
    [FrontierPoint.mk (1/20) (1/25) (5/4) [1]] (1/50)

/-! ## Diversification advisor (optimizer.py lines 558-627) -/

/-- `get_sector_etfs()`: the fixed candidate catalogue (insertion order of
the Python dict). -/
def get_sector_etfs : List (String × String) :=
  [("XLK", "Technology"), ("XLF", "Financials"), ("XLV", "Healthcare"),
   ("XLE", "Energy"), ("XLI", "Industrials"), ("XLY", "Consumer Discretionary"),
   ("XLP", "Consumer Staples"), ("XLB", "Materials"), ("XLRE", "Real Estate"),
   ("XLU", "Utilities"), ("VOO", "S&P 500"), ("VTI", "Total Market"),
   ("VXUS", "International"), ("VNQ", "Real Estate"), ("GLD", "Gold"),
   ("TLT", "Long-term Bonds"), ("AGG", "Aggregate Bonds")]

/-- What the per-candidate `try` block of `analyze_portfolio_gaps` computes
for a candidate ETF: the test-portfolio statistics and the mean correlation
with the current holdings.  The block builds a fresh `PortfolioOptimizer`
(a data fetch) and calls `portfolio_stats`; it is a collaborator here, and a
`none` models any exception in the block (skipped candidate). -/
structure CandidateEval where
  sharpe_ratio : ℚ
  ret : ℚ
  volatility : ℚ
  correlation : ℚ
deriving DecidableEq

/-- One recommendation dict
`{ticker, name, sharpe_improvement, new_return, new_volatility, correlation}`. -/
structure Recommendation where
  ticker : String
  name : String
  sharpe_improvement : ℚ
  new_return : ℚ
  new_volatility : ℚ
  correlation : ℚ
deriving DecidableEq

/-- The recommendation list built by the loop of `analyze_portfolio_gaps`:
candidates already held are skipped, failing candidates are skipped, and a
candidate is kept only when its Sharpe improvement over the current
portfolio is strictly positive. -/
def gapRecommendations (current_tickers : List String) (current_sharpe : ℚ)
    (evalCandidate : String → Option CandidateEval) : List Recommendation :=
  get_sector_etfs.filterMap (fun es =>
    if es.1 ∈ current_tickers then none
    else
      match evalCandidate es.1 with
      | none => none
      | some ev =>
        let sharpe_improvement := ev.sharpe_ratio - current_sharpe
        if 0 < sharpe_improvement then
          some ⟨es.1, es.2, sharpe_improvement, ev.ret, ev.volatility, ev.correlation⟩
        else none)

/-- Insert into a list sorted by descending `sharpe_improvement`. -/
def insertDescBySharpe (r : Recommendation) : List Recommendation → List Recommendation
  | [] => [r]
  | x :: xs =>
    if x.sharpe_improvement < r.sharpe_improvement then r :: x :: xs
    else x :: insertDescBySharpe r xs

/-- `recommendations.sort(key=lambda x: x['sharpe_improvement'], reverse=True)`. -/
def sortDescBySharpe : List Recommendation → List Recommendation
  | [] => []
  | x :: xs => insertDescBySharpe x (sortDescBySharpe xs)

/-- `analyze_portfolio_gaps(current_tickers, current_weights, optimizer)`:
build the positive-improvement recommendations, sort them by descending
Sharpe improvement, return the top 5.  `current_sharpe` is
`optimizer.portfolio_stats(current_weights)['sharpe_ratio']` and
`evalCandidate` the per-candidate test evaluation, both collaborators. -/
def analyze_portfolio_gaps (current_tickers : List String) (current_sharpe : ℚ)
    (evalCandidate : String → Option CandidateEval) : List Recommendation :=
  (sortDescBySharpe (gapRecommendations current_tickers current_sharpe evalCandidate)).take 5

/-! ## C8: recommendation list properties -/

theorem mem_insertDescBySharpe {y r : Recommendation} {l : List Recommendation} :
    y ∈ insertDescBySharpe r l ↔ y = r ∨ y ∈ l := by
  induction l with
  | nil => simp [insertDescBySharpe]
  | cons x xs ih =>
    show y ∈ (if x.sharpe_improvement < r.sharpe_improvement then r :: x :: xs
      else x :: insertDescBySharpe r xs) ↔ _
    by_cases h : x.sharpe_improvement < r.sharpe_improvement
    · rw [if_pos h]
      simp [or_assoc]
    · rw [if_neg h]
      simp only [List.mem_cons, ih]
      tauto

theorem mem_sortDescBySharpe {y : Recommendation} {l : List Recommendation} :
    y ∈ sortDescBySharpe l ↔ y ∈ l := by
  induction l with
  | nil => simp [sortDescBySharpe]
  | cons x xs ih =>
    show y ∈ insertDescBySharpe x (sortDescBySharpe xs) ↔ _
    rw [mem_insertDescBySharpe, ih]
    simp

theorem pairwise_insertDescBySharpe {r : Recommendation} {l : List Recommendation}
    (h : l.Pairwise (fun a b => b.sharpe_improvement ≤ a.sharpe_improvement)) :
    (insertDescBySharpe r l).Pairwise
      (fun a b => b.sharpe_improvement ≤ a.sharpe_improvement) := by
  induction l with
  | nil => simp [insertDescBySharpe]
  | cons x xs ih =>
    rw [List.pairwise_cons] at h
    show ((if x.sharpe_improvement < r.sharpe_improvement then r :: x :: xs
      else x :: insertDescBySharpe r xs)).Pairwise _
    by_cases hc : x.sharpe_improvement < r.sharpe_improvement
    · rw [if_pos hc]
      refine List.pairwise_cons.mpr ⟨?_, List.pairwise_cons.mpr h⟩
      intro b hb
      rcases List.mem_cons.mp hb with hb | hb
      · rw [hb]
        exact le_of_lt hc
      · exact le_trans (h.1 b hb) (le_of_lt hc)
    · rw [if_neg hc]
      refine List.pairwise_cons.mpr ⟨?_, ih h.2⟩
      intro b hb
      rcases mem_insertDescBySharpe.mp hb with hb | hb
      · rw [hb]
        exact le_of_not_lt hc
      · exact h.1 b hb

theorem pairwise_sortDescBySharpe (l : List Recommendation) :
    (sortDescBySharpe l).Pairwise
      (fun a b => b.sharpe_improvement ≤ a.sharpe_improvement) := by
  induction l with
  | nil => simp [sortDescBySharpe]
  | cons x xs ih => exact pairwise_insertDescBySharpe ih

theorem gapRecommendations_pos {current_tickers : List String} {current_sharpe : ℚ}
    {evalCandidate : String → Option CandidateEval} {r : Recommendation}
    (h : r ∈ gapRecommendations current_tickers current_sharpe evalCandidate) :
    0 < r.sharpe_improvement := by
  rw [gapRecommendations, List.mem_filterMap] at h
  obtain ⟨es, -, heq⟩ := h
  by_cases hmem : es.1 ∈ current_tickers
  · rw [if_pos hmem] at heq
    cases heq
  · rw [if_neg hmem] at heq
    cases hev : evalCandidate es.1 with
    | none => rw [hev] at heq; cases heq
    | some ev =>
      rw [hev] at heq
      simp only at heq
      by_cases hpos : 0 < ev.sharpe_ratio - current_sharpe
      · rw [if_pos hpos] at heq
        cases heq
        exact hpos
      · rw [if_neg hpos] at heq
        cases heq

/-- C8: the recommendation list returned by `analyze_portfolio_gaps` has at
most 5 entries, every entry has strictly positive `sharpe_improvement`
(non-positive candidates are excluded), and the list is sorted in descending
order of `sharpe_improvement`. -/
theorem c8_gap_recommendations (current_tickers : List String) (current_sharpe : ℚ)
    (evalCandidate : String → Option CandidateEval) :
    (analyze_portfolio_gaps current_tickers current_sharpe evalCandidate).length ≤ 5 ∧
    (∀ r ∈ analyze_portfolio_gaps current_tickers current_sharpe evalCandidate,
      0 < r.sharpe_improvement) ∧
    (analyze_portfolio_gaps current_tickers current_sharpe evalCandidate).Pairwise
      (fun a b => b.sharpe_improvement ≤ a.sharpe_improvement) := by
  refine ⟨?_, ?_, ?_⟩
  · exact List.length_take_le 5 _
  · intro r hr
    have h1 : r ∈ sortDescBySharpe
        (gapRecommendations current_tickers current_sharpe evalCandidate) :=
      List.mem_of_mem_take hr
    exact gapRecommendations_pos (mem_sortDescBySharpe.mp h1)
  · exact List.Pairwise.sublist (List.take_sublist 5 _)
      (pairwise_sortDescBySharpe _)

theorem c8_gap_recommendations_witness :
    analyze_portfolio_gaps ["AAA"] 1
      (fun t => if t = "XLK" then some ⟨2, 1/10, 1/5, 1/2⟩ else none) =
      [⟨"XLK", "Technology", 1, 1/10, 1/5, 1/2⟩] ∧
    (analyze_portfolio_gaps ["AAA"] 1
      (fun t => if t = "XLK" then some ⟨2, 1/10, 1/5, 1/2⟩ else none)).length ≤ 5 ∧
    (∀ r ∈ analyze_portfolio_gaps ["AAA"] 1
      (fun t => if t = "XLK" then some ⟨2, 1/10, 1/5, 1/2⟩ else none),
      0 < r.sharpe_improvement) ∧
    (analyze_portfolio_gaps ["AAA"] 1
      (fun t => if t = "XLK" then some ⟨2, 1/10, 1/5, 1/2⟩ else none)).Pairwise
      (fun a b => b.sharpe_improvement ≤ a.sharpe_improvement) := by
  have h := c8_gap_recommendations ["AAA"] 1
    (fun t => if t = "XLK" then some ⟨2, 1/10, 1/5, 1/2⟩ else none)
  refine ⟨?_, h.1, h.2.1, h.2.2⟩
  norm_num [analyze_portfolio_gaps, gapRecommendations, get_sector_etfs,
    List.filterMap_cons, sortDescBySharpe, insertDescBySharpe]

end FinanceAnalytics
